import Mathlib

/-!
Verification development for the real-time market-data streaming gateway
(`apps/api/app/services/kite_service.py` and `apps/api/app/routers/websocket.py`).

The Python classes `InstrumentCache`, `ConnectionManager` and `KiteService` are
shallowly embedded: dictionaries become association lists, Python `set`s become
`Finset`s, prices become rationals, and the outcome of each network send is an
explicit oracle `fails : Nat → Bool` (whether `ws.send_text` raises for that
session).  A `WebSocket` object is modelled by its `id()`, a natural number.
-/

namespace InsightfulPortfolio

/-! ### Python `dict` as an association list

Lookup returns the first binding; `set` and `pop` keep at most one binding per
key, matching a Python `dict`.  (Insertion order is not modelled; no verified
property depends on iteration order.) -/

namespace Dict

variable {K V A : Type} [DecidableEq K]

/-- Lookup: `d[k]` / `d.get(k)`. -/
def get? : List (K × V) → K → Option V
  | [], _ => none
  | (k', v) :: rest, k => if k' = k then some v else get? rest k

/-- Lookup with default: `d.get(k, v0)`. -/
def getD (d : List (K × V)) (k : K) (v0 : V) : V := (get? d k).getD v0

/-- Remove every binding of `k` (a Python dict holds at most one). -/
def eraseKey : List (K × V) → K → List (K × V)
  | [], _ => []
  | (k', v) :: rest, k => if k' = k then eraseKey rest k else (k', v) :: eraseKey rest k

/-- Assignment `d[k] = v`. -/
def set (d : List (K × V)) (k : K) (v : V) : List (K × V) := (k, v) :: eraseKey d k

/-- Removal `d.pop(k, None)` (also total when the key is absent). -/
def pop (d : List (K × V)) (k : K) : List (K × V) := eraseKey d k

/-- Rewrite every stored value in place; keys are untouched. -/
def mapValues (f : K → V → V) (d : List (K × V)) : List (K × V) :=
  d.map (fun p => (p.1, f p.1 p.2))

/-- Key view `d.keys()` (also the first components of `d.items()`). -/
def keys (d : List (K × V)) : List K := d.map Prod.fst

@[simp] theorem get?_nil (k : K) : get? ([] : List (K × V)) k = none := rfl

@[simp] theorem get?_cons (k' : K) (v : V) (d : List (K × V)) (k : K) :
    get? ((k', v) :: d) k = if k' = k then some v else get? d k := rfl

theorem get?_eraseKey_self (d : List (K × V)) (k : K) : get? (eraseKey d k) k = none := by
  induction d with
  | nil => rfl
  | cons p rest ih =>
      obtain ⟨k', v⟩ := p
      by_cases h : k' = k <;> simp [eraseKey, h, ih]

theorem get?_eraseKey_ne (d : List (K × V)) {k k' : K} (h : k' ≠ k) :
    get? (eraseKey d k) k' = get? d k' := by
  induction d with
  | nil => rfl
  | cons p rest ih =>
      obtain ⟨a, v⟩ := p
      by_cases ha : a = k
      · have hak : ¬ a = k' := fun hh => h (hh.symm.trans ha)
        simp only [eraseKey, if_pos ha, ih, get?_cons, if_neg hak]
      · simp only [eraseKey, if_neg ha, get?_cons, ih]

@[simp] theorem get?_set_self (d : List (K × V)) (k : K) (v : V) :
    get? (set d k v) k = some v := by simp [set]

theorem get?_set_ne (d : List (K × V)) {k k' : K} (h : k' ≠ k) (v : V) :
    get? (set d k v) k' = get? d k' := by
  have hkk : ¬ k = k' := fun hh => h hh.symm
  simp [set, hkk, get?_eraseKey_ne d h]

@[simp] theorem get?_pop_self (d : List (K × V)) (k : K) : get? (pop d k) k = none :=
  get?_eraseKey_self d k

theorem get?_pop_ne (d : List (K × V)) {k k' : K} (h : k' ≠ k) :
    get? (pop d k) k' = get? d k' := get?_eraseKey_ne d h

theorem get?_mapValues (f : K → V → V) (d : List (K × V)) (k : K) :
    get? (mapValues f d) k = (get? d k).map (f k) := by
  induction d with
  | nil => rfl
  | cons p rest ih =>
      obtain ⟨a, v⟩ := p
      by_cases ha : a = k
      · subst ha; simp [mapValues]
      · simp [mapValues, ha] at ih ⊢; exact ih

/-- If the key is already absent it stays absent after erasing another key. -/
theorem get?_eraseKey_none (d : List (K × V)) {k : K} (h : get? d k = none) (k' : K) :
    get? (eraseKey d k') k = none := by
  by_cases hk : k = k'
  · subst hk; exact get?_eraseKey_self d k
  · rw [get?_eraseKey_ne d hk]; exact h

theorem get?_mem (d : List (K × V)) {k : K} {v : V} (h : get? d k = some v) :
    (k, v) ∈ d := by
  induction d with
  | nil => simp [get?] at h
  | cons p rest ih =>
      obtain ⟨a, w⟩ := p
      by_cases ha : a = k
      · subst ha
        simp [get?] at h
        subst h; exact List.mem_cons_self _ _
      · simp [get?, ha] at h
        exact List.mem_cons_of_mem _ (ih h)

theorem mem_eraseKey {d : List (K × V)} {k : K} {p : K × V} :
    p ∈ eraseKey d k ↔ p ∈ d ∧ p.1 ≠ k := by
  induction d with
  | nil => simp [eraseKey]
  | cons q rest ih =>
      obtain ⟨a, w⟩ := q
      by_cases ha : a = k
      · simp only [eraseKey, if_pos ha, ih, List.mem_cons]
        constructor
        · rintro ⟨hp, hne⟩; exact ⟨Or.inr hp, hne⟩
        · rintro ⟨hp | hp, hne⟩
          · exact absurd (by rw [hp]; exact ha) hne
          · exact ⟨hp, hne⟩
      · simp only [eraseKey, if_neg ha, List.mem_cons, ih]
        constructor
        · rintro (rfl | ⟨hp, hne⟩)
          · exact ⟨Or.inl rfl, ha⟩
          · exact ⟨Or.inr hp, hne⟩
        · rintro ⟨rfl | hp, hne⟩
          · exact Or.inl rfl
          · exact Or.inr ⟨hp, hne⟩

theorem mem_keys_iff_get? (d : List (K × V)) (k : K) :
    k ∈ keys d ↔ (get? d k).isSome = true := by
  induction d with
  | nil => simp [keys]
  | cons p rest ih =>
      obtain ⟨a, v⟩ := p
      by_cases ha : a = k
      · subst ha; simp [keys]
      · simp [keys, ha, Ne.symm ha] at ih ⊢; exact ih

end Dict

/-! ### `ConnectionManager` (Subscription Registry)

Embeds `ConnectionManager` from `apps/api/app/services/kite_service.py`:
`_client_symbols : dict[int, set[str]]`, `_symbol_clients : dict[str, set[int]]`
and `_clients : dict[int, WebSocket]`.  A `WebSocket` is modelled by its `id()`
(the value stored under `_clients[wid]` is the id itself). -/

structure ConnectionManager where
  client_symbols : List (Nat × Finset String)
  symbol_clients : List (String × Finset Nat)
  clients : List (Nat × Nat)
deriving DecidableEq

def emptyCM : ConnectionManager := ⟨[], [], []⟩

/-- Symbol set currently recorded for a session: `self._client_symbols.get(wid, set())`. -/
def csSet (m : ConnectionManager) (wid : Nat) : Finset String :=
  Dict.getD m.client_symbols wid ∅

/-- Session set currently recorded for a symbol: `self._symbol_clients.get(symbol, set())`. -/
def scSet (m : ConnectionManager) (symbol : String) : Finset Nat :=
  Dict.getD m.symbol_clients symbol ∅

/-- Python `d.setdefault(k, set()).add(a)`: the key is created if absent and `a`
is added to its set. -/
def addToSet {K A : Type} [DecidableEq K] [DecidableEq A]
    (d : List (K × Finset A)) (k : K) (a : A) : List (K × Finset A) :=
  Dict.set d k (insert a (Dict.getD d k ∅))

/-- Python `d.get(k, set()).discard(a)`: when the key is present its stored set
loses `a` in place; when absent the discard happens on a throwaway set and the
dict is untouched (in particular no key is created). -/
def dropFromSet {K A : Type} [DecidableEq K] [DecidableEq A]
    (d : List (K × Finset A)) (k : K) (a : A) : List (K × Finset A) :=
  match Dict.get? d k with
  | none => d
  | some s => Dict.set d k (s.erase a)

/-- Python `connect(ws)`. -/
def connect (m : ConnectionManager) (wid : Nat) : ConnectionManager where
  client_symbols := Dict.set m.client_symbols wid ∅
  symbol_clients := m.symbol_clients
  clients := Dict.set m.clients wid wid

/-- Body of the loop in `subscribe` for one symbol. -/
def subscribe1 (m : ConnectionManager) (wid : Nat) (symbol : String) : ConnectionManager where
  client_symbols := addToSet m.client_symbols wid symbol
  symbol_clients := addToSet m.symbol_clients symbol wid
  clients := m.clients

/-- Python `subscribe(ws, symbols)`. -/
def subscribe (m : ConnectionManager) (wid : Nat) (symbols : List String) : ConnectionManager :=
  symbols.foldl (fun m s => subscribe1 m wid s) m

/-- Body of the loop in `unsubscribe` for one symbol. -/
def unsubscribe1 (m : ConnectionManager) (wid : Nat) (symbol : String) : ConnectionManager where
  client_symbols := dropFromSet m.client_symbols wid symbol
  symbol_clients := dropFromSet m.symbol_clients symbol wid
  clients := m.clients

/-- Python `unsubscribe(ws, symbols)`. -/
def unsubscribe (m : ConnectionManager) (wid : Nat) (symbols : List String) : ConnectionManager :=
  symbols.foldl (fun m s => unsubscribe1 m wid s) m

/-- Denotation of the loop `for symbol in syms: self._symbol_clients.get(symbol,
set()).discard(wid)`: each present key in `syms` loses `wid`; the iteration
order is immaterial because every pass touches a different key. -/
def discardFromSymbols (sc : List (String × Finset Nat)) (syms : Finset String) (wid : Nat) :
    List (String × Finset Nat) :=
  Dict.mapValues (fun x s => if x ∈ syms then s.erase wid else s) sc

/-- Shared three-line removal performed by `disconnect` and by the dead-session
cleanup loops of `broadcast_tick` / `broadcast_all`: drop the session from every
symbol set it belonged to, then pop its own `_client_symbols` and `_clients`
entries. -/
def removeSession (m : ConnectionManager) (wid : Nat) : ConnectionManager where
  client_symbols := Dict.pop m.client_symbols wid
  symbol_clients := discardFromSymbols m.symbol_clients (csSet m wid) wid
  clients := Dict.pop m.clients wid

/-- Python `disconnect(ws)` (its body is exactly `removeSession`). -/
def disconnect (m : ConnectionManager) (wid : Nat) : ConnectionManager :=
  removeSession m wid

/-- Python `all_subscribed_symbols()`: union of the sets stored in `_client_symbols`. -/
def all_subscribed_symbols (m : ConnectionManager) : Finset String :=
  m.client_symbols.foldr (fun p acc => p.2 ∪ acc) ∅

/-- Observable outcome of one broadcast call: the post-cleanup registry, the
sessions a send was attempted for, the sessions whose send succeeded, and the
sessions the call treated as dead. -/
structure BroadcastOut where
  state : ConnectionManager
  attempted : List Nat
  delivered : List Nat
  dead : List Nat

/-- Python `broadcast_tick(symbol, tick)`.  Here `fails wid` tells whether
`ws.send_text` raises for that session; a session whose id is missing from
`_clients` is dead without a send attempt.  The tick payload itself does not
influence the registry, so it is not carried here. -/
def broadcast_tick (m : ConnectionManager) (symbol : String) (fails : Nat → Bool) :
    BroadcastOut :=
  let wids := (scSet m symbol).sort (· ≤ ·)
  let dead := wids.filter (fun w => !(Dict.get? m.clients w).isSome || fails w)
  { state := dead.foldl removeSession m
    attempted := wids.filter (fun w => (Dict.get? m.clients w).isSome)
    delivered := wids.filter (fun w => (Dict.get? m.clients w).isSome && !fails w)
    dead := dead }

/-- Python `broadcast_status(connected, source)`: sends to every client; a raising
send is swallowed by `except Exception: pass` — no cleanup of any kind. -/
def broadcast_status (m : ConnectionManager) (_connected : Bool) (_source : String)
    (fails : Nat → Bool) : BroadcastOut :=
  let wids := Dict.keys m.clients
  { state := m
    attempted := wids
    delivered := wids.filter (fun w => !fails w)
    dead := [] }

/-- Python `broadcast_all(payload)`: sends to every client and applies the same
dead-session cleanup loop as `broadcast_tick` (guarded by `if dead:`). -/
def broadcast_all (m : ConnectionManager) (fails : Nat → Bool) : BroadcastOut :=
  let wids := Dict.keys m.clients
  let dead := wids.filter fails
  { state := if dead.isEmpty then m else dead.foldl removeSession m
    attempted := wids
    delivered := wids.filter (fun w => !fails w)
    dead := dead }

/-! ### Pointwise effect of each registry operation -/

theorem getD_addToSet {K A : Type} [DecidableEq K] [DecidableEq A]
    (d : List (K × Finset A)) (k : K) (a : A) (k' : K) :
    Dict.getD (addToSet d k a) k' ∅ =
      if k' = k then insert a (Dict.getD d k ∅) else Dict.getD d k' ∅ := by
  by_cases h : k' = k
  · subst h; simp [addToSet, Dict.getD]
  · simp [addToSet, Dict.getD, Dict.get?_set_ne d h, h]

theorem getD_dropFromSet {K A : Type} [DecidableEq K] [DecidableEq A]
    (d : List (K × Finset A)) (k : K) (a : A) (k' : K) :
    Dict.getD (dropFromSet d k a) k' ∅ =
      if k' = k then (Dict.getD d k ∅).erase a else Dict.getD d k' ∅ := by
  unfold dropFromSet
  cases hg : Dict.get? d k with
  | none =>
      by_cases h : k' = k
      · subst h; simp [Dict.getD, hg]
      · simp [h]
  | some s =>
      by_cases h : k' = k
      · subst h; simp [Dict.getD, hg]
      · simp [Dict.getD, Dict.get?_set_ne d h, h]

theorem csSet_connect (m : ConnectionManager) (wid w : Nat) :
    csSet (connect m wid) w = if w = wid then (∅ : Finset String) else csSet m w := by
  by_cases h : w = wid
  · subst h; simp [csSet, connect, Dict.getD]
  · simp [csSet, connect, Dict.getD, Dict.get?_set_ne _ h, h]

theorem scSet_connect (m : ConnectionManager) (wid : Nat) (x : String) :
    scSet (connect m wid) x = scSet m x := rfl

theorem csSet_subscribe1 (m : ConnectionManager) (wid : Nat) (s : String) (w : Nat) :
    csSet (subscribe1 m wid s) w = if w = wid then insert s (csSet m wid) else csSet m w := by
  simp [csSet, subscribe1, getD_addToSet]

theorem scSet_subscribe1 (m : ConnectionManager) (wid : Nat) (s : String) (x : String) :
    scSet (subscribe1 m wid s) x = if x = s then insert wid (scSet m s) else scSet m x := by
  simp [scSet, subscribe1, getD_addToSet]

theorem csSet_unsubscribe1 (m : ConnectionManager) (wid : Nat) (s : String) (w : Nat) :
    csSet (unsubscribe1 m wid s) w = if w = wid then (csSet m wid).erase s else csSet m w := by
  simp [csSet, unsubscribe1, getD_dropFromSet]

theorem scSet_unsubscribe1 (m : ConnectionManager) (wid : Nat) (s : String) (x : String) :
    scSet (unsubscribe1 m wid s) x = if x = s then (scSet m s).erase wid else scSet m x := by
  simp [scSet, unsubscribe1, getD_dropFromSet]

theorem scSet_removeSession (m : ConnectionManager) (wid : Nat) (x : String) :
    scSet (removeSession m wid) x =
      if x ∈ csSet m wid then (scSet m x).erase wid else scSet m x := by
  unfold scSet removeSession discardFromSymbols
  rw [Dict.getD, Dict.get?_mapValues]
  cases hg : Dict.get? m.symbol_clients x with
  | none => by_cases h : x ∈ csSet m wid <;> simp [Dict.getD, hg, h]
  | some s => by_cases h : x ∈ csSet m wid <;> simp [Dict.getD, hg, h]

theorem csSet_removeSession (m : ConnectionManager) (wid w : Nat) :
    csSet (removeSession m wid) w = if w = wid then ∅ else csSet m w := by
  by_cases h : w = wid
  · subst h; simp [csSet, removeSession, Dict.getD, Dict.get?_pop_self]
  · simp [csSet, removeSession, Dict.getD, Dict.get?_pop_ne _ h, h]

/-! ### The inverse-maps invariant (Subscription Registry) -/

/-- Invariant: the two index maps are membership-inverse — a session belongs to
a symbol's set iff that symbol belongs to the session's set. -/
def Inv (m : ConnectionManager) : Prop :=
  ∀ w x, w ∈ scSet m x ↔ x ∈ csSet m w

/-- Executable sufficient check for `Inv` (used to discharge hypotheses on
concrete states by evaluation). -/
def checkInv (m : ConnectionManager) : Bool :=
  m.symbol_clients.all (fun p => decide (∀ w ∈ p.2, p.1 ∈ csSet m w)) &&
  m.client_symbols.all (fun p => decide (∀ x ∈ p.2, p.1 ∈ scSet m x))

theorem checkInv_sound (m : ConnectionManager) (h : checkInv m = true) : Inv m := by
  rw [checkInv, Bool.and_eq_true, List.all_eq_true, List.all_eq_true] at h
  obtain ⟨h1, h2⟩ := h
  intro w x
  constructor
  · intro hw
    unfold scSet Dict.getD at hw
    cases hg : Dict.get? m.symbol_clients x with
    | none => rw [hg] at hw; simp at hw
    | some s =>
        rw [hg] at hw; simp only [Option.getD_some] at hw
        have hm := h1 (x, s) (Dict.get?_mem _ hg)
        rw [decide_eq_true_eq] at hm
        exact hm w hw
  · intro hx
    unfold csSet Dict.getD at hx
    cases hg : Dict.get? m.client_symbols w with
    | none => rw [hg] at hx; simp at hx
    | some s =>
        rw [hg] at hx; simp only [Option.getD_some] at hx
        have hm := h2 (w, s) (Dict.get?_mem _ hg)
        rw [decide_eq_true_eq] at hm
        exact hm x hx

theorem Inv_empty : Inv emptyCM := by
  intro w x; simp [emptyCM, scSet, csSet, Dict.getD, Dict.get?]

theorem Inv_connect {m : ConnectionManager} (hInv : Inv m) {wid : Nat}
    (hfree : csSet m wid = ∅) : Inv (connect m wid) := by
  intro w x
  rw [scSet_connect, csSet_connect]
  by_cases h : w = wid
  · subst h
    rw [if_pos rfl]
    simp only [Finset.not_mem_empty, iff_false]
    intro hw
    have hx := (hInv w x).mp hw
    rw [hfree] at hx
    exact Finset.not_mem_empty x hx
  · rw [if_neg h]
    exact hInv w x

theorem Inv_subscribe1 {m : ConnectionManager} (hInv : Inv m) (wid : Nat) (s : String) :
    Inv (subscribe1 m wid s) := by
  intro w x
  rw [scSet_subscribe1, csSet_subscribe1]
  by_cases hx : x = s <;> by_cases hw : w = wid
  · subst hx; subst hw
    simp [Finset.mem_insert]
  · subst hx
    rw [if_pos rfl, if_neg hw, Finset.mem_insert]
    constructor
    · rintro (h1 | h1)
      · exact absurd h1 hw
      · exact (hInv w x).mp h1
    · intro h1
      exact Or.inr ((hInv w x).mpr h1)
  · subst hw
    rw [if_neg hx, if_pos rfl, Finset.mem_insert]
    constructor
    · intro h1
      exact Or.inr ((hInv w x).mp h1)
    · rintro (h1 | h1)
      · exact absurd h1 hx
      · exact (hInv w x).mpr h1
  · rw [if_neg hx, if_neg hw]
    exact hInv w x

theorem Inv_unsubscribe1 {m : ConnectionManager} (hInv : Inv m) (wid : Nat) (s : String) :
    Inv (unsubscribe1 m wid s) := by
  intro w x
  rw [scSet_unsubscribe1, csSet_unsubscribe1]
  by_cases hx : x = s <;> by_cases hw : w = wid
  · subst hx; subst hw
    simp [Finset.mem_erase]
  · subst hx
    rw [if_pos rfl, if_neg hw, Finset.mem_erase]
    constructor
    · rintro ⟨_, h1⟩
      exact (hInv w x).mp h1
    · intro h1
      exact ⟨hw, (hInv w x).mpr h1⟩
  · subst hw
    rw [if_neg hx, if_pos rfl, Finset.mem_erase]
    constructor
    · intro h1
      exact ⟨hx, (hInv w x).mp h1⟩
    · rintro ⟨_, h1⟩
      exact (hInv w x).mpr h1
  · rw [if_neg hx, if_neg hw]
    exact hInv w x

theorem Inv_removeSession {m : ConnectionManager} (hInv : Inv m) (wid : Nat) :
    Inv (removeSession m wid) := by
  intro w x
  rw [scSet_removeSession, csSet_removeSession]
  by_cases hw : w = wid
  · subst hw
    by_cases hx : x ∈ csSet m w <;>
      simp [hx, Finset.mem_erase, hInv w x]
  · by_cases hx : x ∈ csSet m wid <;>
      simp [hx, Finset.mem_erase, hw, hInv w x]

theorem Inv_subscribe {m : ConnectionManager} (hInv : Inv m) (wid : Nat)
    (symbols : List String) : Inv (subscribe m wid symbols) := by
  induction symbols generalizing m with
  | nil => exact hInv
  | cons s rest ih => exact ih (Inv_subscribe1 hInv wid s)

theorem Inv_unsubscribe {m : ConnectionManager} (hInv : Inv m) (wid : Nat)
    (symbols : List String) : Inv (unsubscribe m wid symbols) := by
  induction symbols generalizing m with
  | nil => exact hInv
  | cons s rest ih => exact ih (Inv_unsubscribe1 hInv wid s)

theorem Inv_foldl_removeSession {m : ConnectionManager} (hInv : Inv m) (l : List Nat) :
    Inv (l.foldl removeSession m) := by
  induction l generalizing m with
  | nil => exact hInv
  | cons w rest ih => exact ih (Inv_removeSession hInv w)

theorem Inv_broadcast_tick {m : ConnectionManager} (hInv : Inv m) (symbol : String)
    (fails : Nat → Bool) : Inv (broadcast_tick m symbol fails).state :=
  Inv_foldl_removeSession hInv _

theorem Inv_broadcast_all {m : ConnectionManager} (hInv : Inv m) (fails : Nat → Bool) :
    Inv (broadcast_all m fails).state := by
  unfold broadcast_all
  by_cases h : (List.filter fails (Dict.keys m.clients)).isEmpty <;>
    simp only [h, if_true, if_false] <;>
    first
      | exact hInv
      | exact Inv_foldl_removeSession hInv _

/-! ### Complete removal of dead sessions -/

/-- After `removeSession m wid` the session is gone from the client table, from
its own symbol-set entry and (when the invariant held) from every symbol's set. -/
theorem removeSession_clears (m : ConnectionManager) (wid : Nat) :
    Dict.get? (removeSession m wid).clients wid = none ∧
    Dict.get? (removeSession m wid).client_symbols wid = none := by
  exact ⟨Dict.get?_pop_self _ _, Dict.get?_pop_self _ _⟩

theorem removeSession_clears_symbols {m : ConnectionManager} (hInv : Inv m) (wid : Nat) :
    ∀ x, wid ∉ scSet (removeSession m wid) x := by
  intro x
  rw [scSet_removeSession]
  by_cases hx : x ∈ csSet m wid
  · rw [if_pos hx]
    exact Finset.not_mem_erase wid _
  · rw [if_neg hx]
    intro hw
    exact hx ((hInv wid x).mp hw)

/-- Removing one session never resurrects another session's absence. -/
theorem removeSession_preserves_absent (m : ConnectionManager) (w' : Nat) {wid : Nat}
    (hcl : Dict.get? m.clients wid = none)
    (hcs : Dict.get? m.client_symbols wid = none)
    (hsc : ∀ x, wid ∉ scSet m x) :
    Dict.get? (removeSession m w').clients wid = none ∧
    Dict.get? (removeSession m w').client_symbols wid = none ∧
    ∀ x, wid ∉ scSet (removeSession m w') x := by
  refine ⟨Dict.get?_eraseKey_none _ hcl _, Dict.get?_eraseKey_none _ hcs _, ?_⟩
  intro x
  rw [scSet_removeSession]
  by_cases hx : x ∈ csSet m w'
  · rw [if_pos hx]
    intro hw
    exact hsc x (Finset.mem_of_mem_erase hw)
  · rw [if_neg hx]
    exact hsc x

theorem foldl_removeSession_clears {l : List Nat} :
    ∀ {m : ConnectionManager}, Inv m → ∀ {wid : Nat}, wid ∈ l →
      Dict.get? (l.foldl removeSession m).clients wid = none ∧
      Dict.get? (l.foldl removeSession m).client_symbols wid = none ∧
      ∀ x, wid ∉ scSet (l.foldl removeSession m) x := by
  induction l with
  | nil => intro m _ wid h; exact absurd h (List.not_mem_nil wid)
  | cons w rest ih =>
      intro m hInv wid hmem
      rcases List.mem_cons.mp hmem with rfl | htail
      · -- the head step removes `wid`; the tail steps keep it absent
        have h0 : Dict.get? (removeSession m wid).clients wid = none ∧
            Dict.get? (removeSession m wid).client_symbols wid = none :=
          removeSession_clears m wid
        have h1 := removeSession_clears_symbols hInv wid
        clear hmem
        have : ∀ (rest : List Nat) (m' : ConnectionManager),
            Dict.get? m'.clients wid = none →
            Dict.get? m'.client_symbols wid = none →
            (∀ x, wid ∉ scSet m' x) →
            Dict.get? (rest.foldl removeSession m').clients wid = none ∧
            Dict.get? (rest.foldl removeSession m').client_symbols wid = none ∧
            ∀ x, wid ∉ scSet (rest.foldl removeSession m') x := by
          intro rest
          induction rest with
          | nil => intro m' a b c; exact ⟨a, b, c⟩
          | cons w' rest' ih' =>
              intro m' a b c
              obtain ⟨a', b', c'⟩ := removeSession_preserves_absent m' w' a b c
              exact ih' _ a' b' c'
        exact this rest (removeSession m wid) h0.1 h0.2 h1
      · exact ih (Inv_removeSession hInv w) htail

/-! ### Arbitrary operation sequences (Subscription Registry) -/

/-- One Subscription Registry operation; broadcasts carry their send-failure
oracle. -/
inductive RegOp : Type where
  | connect (wid : Nat)
  | disconnect (wid : Nat)
  | subscribe (wid : Nat) (symbols : List String)
  | unsubscribe (wid : Nat) (symbols : List String)
  | broadcastTick (symbol : String) (fails : Nat → Bool)
  | broadcastAll (fails : Nat → Bool)

def applyOp (m : ConnectionManager) : RegOp → ConnectionManager
  | .connect wid => connect m wid
  | .disconnect wid => disconnect m wid
  | .subscribe wid symbols => subscribe m wid symbols
  | .unsubscribe wid symbols => unsubscribe m wid symbols
  | .broadcastTick symbol fails => (broadcast_tick m symbol fails).state
  | .broadcastAll fails => (broadcast_all m fails).state

def applyOps (ops : List RegOp) : ConnectionManager := ops.foldl applyOp emptyCM

/-- Guard under which an operation respects the session-handler protocol:
only `connect` is restricted, to sessions whose symbol set is currently empty
(fresh or fully cleaned up), which is what the per-connection handler in
`routers/websocket.py` guarantees. -/
def opGuard (m : ConnectionManager) : RegOp → Bool
  | .connect wid => decide (csSet m wid = ∅)
  | _ => true

/-- Sequence validity: every `connect` in the sequence satisfies `opGuard` at
the state where it executes. -/
def okFrom (m : ConnectionManager) : List RegOp → Bool
  | [] => true
  | op :: rest => opGuard m op && okFrom (applyOp m op) rest

theorem Inv_applyOp {m : ConnectionManager} (hInv : Inv m) (op : RegOp)
    (hok : opGuard m op = true) : Inv (applyOp m op) := by
  cases op with
  | connect wid =>
      rw [opGuard, decide_eq_true_eq] at hok
      exact Inv_connect hInv hok
  | disconnect wid => exact Inv_removeSession hInv wid
  | subscribe wid symbols => exact Inv_subscribe hInv wid symbols
  | unsubscribe wid symbols => exact Inv_unsubscribe hInv wid symbols
  | broadcastTick symbol fails => exact Inv_broadcast_tick hInv symbol fails
  | broadcastAll fails => exact Inv_broadcast_all hInv fails

theorem Inv_okFrom {ops : List RegOp} :
    ∀ {m : ConnectionManager}, Inv m → okFrom m ops = true → Inv (ops.foldl applyOp m) := by
  induction ops with
  | nil => intro m hInv _; exact hInv
  | cons op rest ih =>
      intro m hInv hok
      rw [okFrom, Bool.and_eq_true] at hok
      exact ih (Inv_applyOp hInv op hok.1) hok.2

theorem mem_foldr_union {l : List (Nat × Finset String)} {x : String} :
    x ∈ l.foldr (fun p acc => p.2 ∪ acc) ∅ ↔ ∃ p ∈ l, x ∈ p.2 := by
  induction l with
  | nil => simp
  | cons p rest ih => simp [Finset.mem_union, ih]

theorem mem_all_subscribed (m : ConnectionManager) (x : String) :
    x ∈ all_subscribed_symbols m ↔ ∃ p ∈ m.client_symbols, x ∈ p.2 :=
  mem_foldr_union

/-! ### Claim C1 -/

/-- C1 (amended): for every sequence of registry operations starting from the
empty registry in which `connect` is only invoked for a session whose current
symbol set is empty, the session→symbols and symbol→sessions maps are exact
membership inverses — a session `w` is in `symbol_clients[x]` iff `x` is in
`client_symbols[w]` — and consequently a symbol has a nonempty subscriber set
iff at least one session currently holds it.  (As stated the claim is false:
see `registry_inverse_invariant_counterexample` — a symbol key stays in the
symbol→sessions map with an empty set after its last holder leaves, and a
re-`connect` of a still-subscribed session breaks the membership inverse.) -/
theorem registry_inverse_invariant (ops : List RegOp) (hok : okFrom emptyCM ops = true) :
    (∀ w x, w ∈ scSet (applyOps ops) x ↔ x ∈ csSet (applyOps ops) w) ∧
    (∀ x, (scSet (applyOps ops) x).Nonempty ↔ ∃ w, x ∈ csSet (applyOps ops) w) := by
  have hInv : Inv (applyOps ops) := Inv_okFrom Inv_empty hok
  refine ⟨hInv, ?_⟩
  intro x
  constructor
  · rintro ⟨w, hw⟩
    exact ⟨w, (hInv w x).mp hw⟩
  · rintro ⟨w, hw⟩
    exact ⟨w, (hInv w x).mpr hw⟩

def c1seqA : List RegOp := [.connect 1, .subscribe 1 ["A"], .unsubscribe 1 ["A"]]

def c1seqB : List RegOp := [.connect 1, .subscribe 1 ["A"], .connect 1]

/-- C1 as literally stated is false on the code, at two concrete inputs.
After `connect 1; subscribe 1 [A]; unsubscribe 1 [A]` the symbol `A` still
appears as a key of the symbol→sessions map although no session holds it.
After `connect 1; subscribe 1 [A]; connect 1` session 1 is a member of
`symbol_clients[A]` while `A` is not a member of `client_symbols[1]`. -/
theorem registry_inverse_invariant_counterexample :
    ((Dict.get? (applyOps c1seqA).symbol_clients "A").isSome = true ∧
      (applyOps c1seqA).client_symbols = [(1, ∅)]) ∧
    (1 ∈ scSet (applyOps c1seqB) "A" ∧ "A" ∉ csSet (applyOps c1seqB) 1) := by
  decide

/-- Witness for C1: a concrete guarded sequence satisfying the hypothesis, with
the conclusion instantiated at session 1 and symbol `A`. -/
theorem registry_inverse_invariant_witness :
    okFrom emptyCM c1seqA = true ∧
    (1 ∈ scSet (applyOps c1seqA) "A" ↔ "A" ∈ csSet (applyOps c1seqA) 1) :=
  ⟨by decide, (registry_inverse_invariant c1seqA (by decide)).1 1 "A"⟩

/-! ### Claim C2 -/

/-- C2: `broadcast_tick(symbol, tick)` attempts delivery to exactly the
sessions subscribed to `symbol` at call time (so a session that unsubscribed
immediately before the call receives nothing); every session whose send fails
is removed from both index maps and the client table within the same call and
is not delivered to; sessions whose send succeeds were subscribed at call time.
The hypotheses say the registry is well formed: the maps are inverse and every
subscribed session is registered, which the guarded operation sequences of C1
maintain.  The absence of an escaping exception is reflected by the model being
a total function (the `try/except` around `send_text` swallows every send
error). -/
theorem broadcast_tick_spec (m : ConnectionManager) (symbol : String) (fails : Nat → Bool)
    (hInv : Inv m)
    (hreg : ∀ w ∈ scSet m symbol, (Dict.get? m.clients w).isSome = true) :
    (∀ w, w ∈ (broadcast_tick m symbol fails).attempted ↔ w ∈ scSet m symbol) ∧
    (∀ w ∈ scSet m symbol, fails w = true →
        w ∉ (broadcast_tick m symbol fails).delivered ∧
        Dict.get? (broadcast_tick m symbol fails).state.clients w = none ∧
        Dict.get? (broadcast_tick m symbol fails).state.client_symbols w = none ∧
        ∀ x, w ∉ scSet (broadcast_tick m symbol fails).state x) ∧
    (∀ w, w ∈ (broadcast_tick m symbol fails).delivered →
        w ∈ scSet m symbol ∧ fails w = false) := by
  simp only [broadcast_tick]
  refine ⟨?_, ?_, ?_⟩
  · intro w
    rw [List.mem_filter]
    constructor
    · rintro ⟨hw, _⟩
      exact (Finset.mem_sort _).mp hw
    · intro hw
      exact ⟨(Finset.mem_sort _).mpr hw, hreg w hw⟩
  · intro w hw hfail
    have hdead : w ∈ List.filter (fun w => !(Dict.get? m.clients w).isSome || fails w)
        ((scSet m symbol).sort (· ≤ ·)) := by
      rw [List.mem_filter]
      exact ⟨(Finset.mem_sort _).mpr hw, by rw [hfail]; simp⟩
    refine ⟨?_, ?_⟩
    · rw [List.mem_filter]
      rintro ⟨_, hcond⟩
      rw [hfail] at hcond
      simp at hcond
    · exact foldl_removeSession_clears hInv hdead
  · intro w hw
    rw [List.mem_filter, Bool.and_eq_true, Bool.not_eq_true'] at hw
    exact ⟨(Finset.mem_sort _).mp hw.1, hw.2.2⟩

def c2m : ConnectionManager :=
  ⟨[(1, {"A"}), (2, {"A"})], [("A", {1, 2})], [(1, 1), (2, 2)]⟩

def c2fails : Nat → Bool := fun w => decide (w = 1)

/-- Witness for C2: in a registry with sessions 1 and 2 both subscribed to `A`,
where the send to session 1 raises, session 1 is evicted from the client table
and not delivered to. -/
theorem broadcast_tick_spec_witness :
    (1 ∈ scSet c2m "A" ∧ c2fails 1 = true) ∧
    Dict.get? (broadcast_tick c2m "A" c2fails).state.clients 1 = none ∧
    1 ∉ (broadcast_tick c2m "A" c2fails).delivered := by
  have h := broadcast_tick_spec c2m "A" c2fails (checkInv_sound c2m (by decide)) (by decide)
  have h1 := h.2.1 1 (by decide) (by decide)
  exact ⟨⟨by decide, by decide⟩, h1.2.1, h1.1⟩

/-! ### Claim C9 -/

/-- C9: `disconnect(session)` removes the session from every symbol's
subscriber set (given the inverse-maps invariant) and then removes its own
`_client_symbols` and `_clients` entries; it is a total function, so it never
faults — in particular it is well defined when the session was never registered
or was already removed; and if the session was the only one holding a symbol
`X`, then `all_subscribed_symbols()` no longer contains `X` afterwards. -/
theorem disconnect_spec (m : ConnectionManager) (wid : Nat) (hInv : Inv m) :
    Dict.get? (disconnect m wid).clients wid = none ∧
    Dict.get? (disconnect m wid).client_symbols wid = none ∧
    (∀ x, wid ∉ scSet (disconnect m wid) x) ∧
    (∀ X, X ∈ csSet m wid →
      (∀ p ∈ m.client_symbols, p.1 ≠ wid → X ∉ p.2) →
      X ∉ all_subscribed_symbols (disconnect m wid)) := by
  refine ⟨(removeSession_clears m wid).1, (removeSession_clears m wid).2,
    removeSession_clears_symbols hInv wid, ?_⟩
  intro X _ honly hmem
  rw [mem_all_subscribed] at hmem
  obtain ⟨p, hp, hX⟩ := hmem
  have hp' : p ∈ m.client_symbols ∧ p.1 ≠ wid := by
    have : p ∈ Dict.eraseKey m.client_symbols wid := hp
    exact Dict.mem_eraseKey.mp this
  exact honly p hp'.1 hp'.2 hX

def c9m : ConnectionManager := ⟨[(1, {"A"})], [("A", {1})], [(1, 1)]⟩

/-- Witness for C9: disconnecting the sole subscriber of `A` clears its client
entry and removes `A` from `all_subscribed_symbols()`. -/
theorem disconnect_spec_witness :
    Dict.get? (disconnect c9m 1).clients 1 = none ∧
    "A" ∉ all_subscribed_symbols (disconnect c9m 1) := by
  have h := disconnect_spec c9m 1 (checkInv_sound c9m (by decide))
  exact ⟨h.1, h.2.2.2 "A" (by decide) (by decide)⟩

/-! ### Claim C4 -/

def c4m : ConnectionManager := ⟨[(1, {"A"})], [("A", {1})], [(1, 1)]⟩

/-- C4 as stated is false on the code: `broadcast_status` swallows a failing
send with `except Exception: pass` and performs no cleanup at all — here the
send to session 1 is attempted and raises, yet session 1 stays in the client
table and in both index maps. -/
theorem broadcast_cleanup_counterexample :
    1 ∈ (broadcast_status c4m false "disconnected" (fun _ => true)).attempted ∧
    Dict.get? (broadcast_status c4m false "disconnected" (fun _ => true)).state.clients 1
      = some 1 ∧
    Dict.get? (broadcast_status c4m false "disconnected" (fun _ => true)).state.client_symbols 1
      = some {"A"} ∧
    1 ∈ scSet (broadcast_status c4m false "disconnected" (fun _ => true)).state "A" := by
  decide

/-- C4 (amended): `broadcast_all(payload)` and `broadcast_status(state)` both
deliver to every registered session regardless of symbol interest, but only
`broadcast_all` applies the dead-session cleanup discipline of
`broadcast_tick` — a session whose send fails is removed from both index maps
and the client table in the same call — whereas `broadcast_status` ignores
send failures and leaves the registry untouched. -/
theorem broadcast_all_spec (m : ConnectionManager) (fails : Nat → Bool) (hInv : Inv m)
    (connected : Bool) (source : String) :
    (∀ w, w ∈ (broadcast_all m fails).attempted ↔ (Dict.get? m.clients w).isSome = true) ∧
    (∀ w, (Dict.get? m.clients w).isSome = true → fails w = true →
        Dict.get? (broadcast_all m fails).state.clients w = none ∧
        Dict.get? (broadcast_all m fails).state.client_symbols w = none ∧
        ∀ x, w ∉ scSet (broadcast_all m fails).state x) ∧
    (∀ w, w ∈ (broadcast_status m connected source fails).attempted ↔
        (Dict.get? m.clients w).isSome = true) ∧
    (broadcast_status m connected source fails).state = m := by
  refine ⟨?_, ?_, ?_, rfl⟩
  · intro w
    exact Dict.mem_keys_iff_get? m.clients w
  · intro w hsome hfail
    have hdead : w ∈ List.filter fails (Dict.keys m.clients) := by
      rw [List.mem_filter]
      exact ⟨(Dict.mem_keys_iff_get? m.clients w).mpr hsome, hfail⟩
    have hne : (List.filter fails (Dict.keys m.clients)).isEmpty = false := by
      cases hemp : (List.filter fails (Dict.keys m.clients)).isEmpty
      · rfl
      · rw [List.isEmpty_iff] at hemp
        rw [hemp] at hdead
        exact absurd hdead (List.not_mem_nil w)
    simp only [broadcast_all, hne, Bool.false_eq_true, if_false]
    exact foldl_removeSession_clears hInv hdead
  · intro w
    exact Dict.mem_keys_iff_get? m.clients w

/-- Witness for C4 (amended): a failing send during `broadcast_all` evicts the
session from the client table. -/
theorem broadcast_all_spec_witness :
    (Dict.get? c4m.clients 1).isSome = true ∧
    Dict.get? (broadcast_all c4m (fun _ => true)).state.clients 1 = none ∧
    1 ∈ (broadcast_all c4m (fun _ => true)).attempted := by
  have h := broadcast_all_spec c4m (fun _ => true) (checkInv_sound c4m (by decide)) false "x"
  exact ⟨by decide, (h.2.1 1 (by decide) (by decide)).1, (h.1 1).mpr (by decide)⟩

/-! ### `KiteService` feed state (`_connected` / `_source`) and status frames

The status frame is `json.dumps` of
`type: "status", connected: <bool>, source: <str>`; only the two
varying fields are modelled.  The events below are the code paths that touch
`_connected` / `_source` or emit a status frame: `start()` without credentials
(which also makes the fallback poller send its initial status), `start()` with
credentials, the `KiteTicker` callbacks `_on_connect`, `_on_close`, `_on_error`
and `_on_reconnect`, and the connect-time frame of `prices_ws` in
`routers/websocket.py` which echoes the current `_connected` / `_source`. -/

structure StatusFrame where
  connected : Bool
  source : String
deriving DecidableEq

structure FeedState where
  connected : Bool
  source : String
deriving DecidableEq

/-- Python `KiteService.__init__`: `_connected = False`, `_source = "disconnected"`. -/
def initFeed : FeedState := ⟨false, "disconnected"⟩

inductive FeedEvent : Type where
  | startFallback
  | startWithCreds
  | onConnect
  | onClose
  | onError
  | onReconnect
  | clientConnect
deriving DecidableEq

/-- One event: the new `(_connected, _source)` pair and the status frames the
code sends for it (each frame is broadcast via `broadcast_status`, except the
`clientConnect` frame which goes to the single new session). -/
def feedStep : FeedState → FeedEvent → FeedState × List StatusFrame
  | s, .startFallback => (⟨s.connected, "fallback"⟩, [⟨false, "fallback"⟩])
  | s, .startWithCreds => (s, [])
  | _, .onConnect => (⟨true, "zerodha"⟩, [⟨true, "zerodha"⟩])
  | _, .onClose => (⟨false, "disconnected"⟩, [⟨false, "disconnected"⟩])
  | s, .onError => (s, [])
  | s, .onReconnect => (s, [])
  | s, .clientConnect => (s, [⟨s.connected, s.source⟩])

def runFeed (s : FeedState) : List FeedEvent → FeedState × List StatusFrame
  | [] => (s, [])
  | e :: es =>
      let step := feedStep s e
      let rest := runFeed step.1 es
      (rest.1, step.2 ++ rest.2)

/-- No `start()` event: `start` runs once, at application startup. -/
def noStartEvent (es : List FeedEvent) : Bool :=
  es.all (fun e => match e with
    | .startFallback => false
    | .startWithCreds => false
    | _ => true)

/-- State invariant behind C5: `_source` ranges over the three wire values and
`_connected` is true exactly in the broker-connected state. -/
def FeedOK (s : FeedState) : Prop :=
  (s.source = "zerodha" ∨ s.source = "fallback" ∨ s.source = "disconnected") ∧
  (s.connected = true ↔ s.source = "zerodha")

def FrameOK (f : StatusFrame) : Prop :=
  (f.source = "zerodha" ∨ f.source = "fallback" ∨ f.source = "disconnected") ∧
  (f.connected = true ↔ f.source = "zerodha")

theorem feedStep_preserves (s : FeedState) (e : FeedEvent) (hs : FeedOK s)
    (hne : e ≠ FeedEvent.startFallback) :
    FeedOK (feedStep s e).1 ∧ ∀ f ∈ (feedStep s e).2, FrameOK f := by
  cases e with
  | startFallback => exact absurd rfl hne
  | startWithCreds => exact ⟨hs, by intro f hf; simp [feedStep] at hf⟩
  | onConnect =>
      have hiff : (true = true ↔ "zerodha" = "zerodha") := by decide
      refine ⟨⟨Or.inl rfl, hiff⟩, ?_⟩
      intro f hf
      simp only [feedStep, List.mem_singleton] at hf
      subst hf
      exact ⟨Or.inl rfl, by decide⟩
  | onClose =>
      have hiff : (false = true ↔ "disconnected" = "zerodha") := by decide
      refine ⟨⟨Or.inr (Or.inr rfl), hiff⟩, ?_⟩
      intro f hf
      simp only [feedStep, List.mem_singleton] at hf
      subst hf
      exact ⟨Or.inr (Or.inr rfl), by decide⟩
  | onError => exact ⟨hs, by intro f hf; simp [feedStep] at hf⟩
  | onReconnect => exact ⟨hs, by intro f hf; simp [feedStep] at hf⟩
  | clientConnect =>
      refine ⟨hs, ?_⟩
      intro f hf
      simp only [feedStep, List.mem_singleton] at hf
      subst hf
      exact hs

theorem runFeed_preserves (es : List FeedEvent) :
    ∀ s : FeedState, FeedOK s → noStartEvent es = true →
      FeedOK (runFeed s es).1 ∧ ∀ f ∈ (runFeed s es).2, FrameOK f := by
  induction es with
  | nil => intro s hs _; exact ⟨hs, by intro f hf; simp [runFeed] at hf⟩
  | cons e rest ih =>
      intro s hs hns
      rw [noStartEvent, List.all_cons, Bool.and_eq_true] at hns
      have hne : e ≠ FeedEvent.startFallback := by
        intro h; subst h; simp at hns
      obtain ⟨h1, h2⟩ := feedStep_preserves s e hs hne
      obtain ⟨h3, h4⟩ := ih (feedStep s e).1 h1 hns.2
      refine ⟨h3, ?_⟩
      intro f hf
      simp only [runFeed, List.mem_append] at hf
      rcases hf with hf | hf
      · exact h2 f hf
      · exact h4 f hf

/-! ### Claim C5 -/

/-- C5 (amended): along every run from service construction in which `start`
occurs only as the first action, every status frame sent to a client — the
connect-time frame and every state-change announcement — has `source` equal to
one of `"zerodha"`, `"fallback"`, `"disconnected"`, and its `connected` field
is true exactly when `source` is `"zerodha"` (the broker-connected value).
The claim as stated, with `"broker"` as the broker-connected wire value, is
false: see `status_frame_counterexample` — the code writes `"zerodha"`. -/
theorem status_frame_spec (es : List FeedEvent)
    (hs : noStartEvent (es.drop 1) = true) :
    ∀ f ∈ (runFeed initFeed es).2,
      (f.source = "zerodha" ∨ f.source = "fallback" ∨ f.source = "disconnected") ∧
      (f.connected = true ↔ f.source = "zerodha") := by
  cases es with
  | nil => intro f hf; simp [runFeed] at hf
  | cons e rest =>
      have h0 : FeedOK (feedStep initFeed e).1 ∧ ∀ f ∈ (feedStep initFeed e).2, FrameOK f := by
        cases e <;>
          refine ⟨⟨by decide, by decide⟩, ?_⟩ <;>
          intro f hf <;>
          simp only [feedStep, initFeed, List.mem_singleton] at hf <;>
          first
            | exact absurd hf (List.not_mem_nil f)
            | (subst hf; exact ⟨by decide, by decide⟩)
      rw [List.drop_one, List.tail_cons] at hs
      obtain ⟨h3, h4⟩ := runFeed_preserves rest (feedStep initFeed e).1 h0.1 hs
      intro f hf
      simp only [runFeed, List.mem_append] at hf
      rcases hf with hf | hf
      · exact h0.2 f hf
      · exact h4 f hf

/-- C5 as stated is false on the code: the frame broadcast by `_on_connect`
carries `source = "zerodha"`, which is none of `"broker"`, `"fallback"`,
`"disconnected"`. -/
theorem status_frame_counterexample :
    (feedStep initFeed FeedEvent.onConnect).2 = [⟨true, "zerodha"⟩] ∧
    ("zerodha" ≠ "broker" ∧ "zerodha" ≠ "fallback" ∧ "zerodha" ≠ "disconnected") := by
  constructor
  · rfl
  · refine ⟨?_, ?_, ?_⟩ <;> decide

def c5es : List FeedEvent :=
  [FeedEvent.startFallback, FeedEvent.onConnect, FeedEvent.clientConnect]

/-- Witness for C5: a concrete run (fallback start, broker connect, then a
client connects), instantiated at the connect-time frame it sends. -/
theorem status_frame_spec_witness :
    noStartEvent (c5es.drop 1) = true ∧
    ((⟨true, "zerodha"⟩ : StatusFrame).connected = true ↔
      (⟨true, "zerodha"⟩ : StatusFrame).source = "zerodha") :=
  ⟨by decide, (status_frame_spec c5es (by decide) ⟨true, "zerodha"⟩ (by decide)).2⟩

/-! ### Claim C6 -/

/-- Python `_on_close`: sets `_connected = False`, `_source = "disconnected"` and
broadcasts the new status to every client. -/
def on_close (_s : FeedState) (m : ConnectionManager) (fails : Nat → Bool) :
    FeedState × BroadcastOut :=
  (⟨false, "disconnected"⟩, broadcast_status m false "disconnected" fails)

/-- Python `_on_error`: `logger.error(...)` only — feed state and registry untouched,
nothing is sent. -/
def on_error (state : FeedState) (m : ConnectionManager) : FeedState × ConnectionManager :=
  (state, m)

/-- C6 as stated is false on the code: the upstream error callback does not
mark the feed state disconnected (and sends nothing) — from the live state it
leaves `_source = "zerodha"` and the registry untouched. -/
theorem on_error_counterexample :
    (on_error ⟨true, "zerodha"⟩ emptyCM).1.source = "zerodha" ∧
    (on_error ⟨true, "zerodha"⟩ emptyCM).1.source ≠ "disconnected" ∧
    (on_error ⟨true, "zerodha"⟩ emptyCM).2 = emptyCM := by
  refine ⟨rfl, by decide, rfl⟩

/-- C6 (amended): the upstream close callback marks the feed state
`disconnected` and announces the new state to every registered session via
`broadcast_status`; the upstream error callback only logs — it changes neither
the feed state nor the registry and sends nothing. -/
theorem on_close_spec (s : FeedState) (m : ConnectionManager) (fails : Nat → Bool) :
    (on_close s m fails).1 = ⟨false, "disconnected"⟩ ∧
    (∀ w, w ∈ (on_close s m fails).2.attempted ↔ (Dict.get? m.clients w).isSome = true) ∧
    (on_error s m).1 = s ∧
    (on_error s m).2 = m := by
  refine ⟨rfl, ?_, rfl, rfl⟩
  intro w
  exact Dict.mem_keys_iff_get? m.clients w

/-! ### `InstrumentCache` (Instrument Directory)

Embeds `InstrumentCache.load` and its lookups.  A CSV row is kept only as far
as `load()` reads it: `instrument_token` is the result of
`int(row["instrument_token"])` — `none` models the `KeyError`/`ValueError`
path — and `tradingsymbol` is `none` when that column is missing.  A fetch
whose HTTP status is not 200 is `none` and is skipped with a warning. -/

structure RawRow where
  instrument_token : Option Int
  tradingsymbol : Option String
deriving DecidableEq

structure InstrumentCache where
  symbol_to_token : List (String × Int)
  token_to_symbol : List (Int × String)
  loaded : Bool
deriving DecidableEq

def emptyIC : InstrumentCache := ⟨[], [], false⟩

/-- Body of the row loop in `load()`: a parsing row inserts into both lookup
directions under the key `exchange:tradingsymbol`; a row raising
`KeyError`/`ValueError` is skipped by `continue`. -/
def loadRow (exchange : String) (c : InstrumentCache) (row : RawRow) : InstrumentCache :=
  match row.instrument_token, row.tradingsymbol with
  | some tok, some ts =>
      { c with
        symbol_to_token := Dict.set c.symbol_to_token (exchange ++ ":" ++ ts) tok
        token_to_symbol := Dict.set c.token_to_symbol tok (exchange ++ ":" ++ ts) }
  | _, _ => c

/-- Body of the exchange loop in `load()`. -/
def loadExchange (c : InstrumentCache) : String × Option (List RawRow) → InstrumentCache
  | (_, none) => c
  | (exchange, some rows) => rows.foldl (loadRow exchange) c

/-- Python `load()`, taking the per-exchange fetch results as input (the code iterates
`("NSE", "BSE")`; the exchange list is data here).  Note that `load` never
clears `_symbol_to_token` / `_token_to_symbol` before inserting. -/
def load (c : InstrumentCache) (fetches : List (String × Option (List RawRow))) :
    InstrumentCache :=
  let c1 := fetches.foldl loadExchange c
  { c1 with loaded := true }

namespace InstrumentCache

/-- Python `token(symbol)`. -/
def token (c : InstrumentCache) (sym : String) : Option Int :=
  Dict.get? c.symbol_to_token sym

/-- Python `symbol(token)`. -/
def symbol (c : InstrumentCache) (tok : Int) : Option String :=
  Dict.get? c.token_to_symbol tok

end InstrumentCache

/-- The `(exchange:tradingsymbol, token)` pair a row contributes, if it parses. -/
def rowEntry (exchange : String) (r : RawRow) : Option (String × Int) :=
  match r.instrument_token, r.tradingsymbol with
  | some tok, some ts => some (exchange ++ ":" ++ ts, tok)
  | _, _ => none

/-- All pairs the fetched dumps contribute, in processing order. -/
def fetchEntries : List (String × Option (List RawRow)) → List (String × Int)
  | [] => []
  | (_, none) :: rest => fetchEntries rest
  | (ex, some rows) :: rest => rows.filterMap (rowEntry ex) ++ fetchEntries rest

theorem loadRow_eq (ex : String) (c : InstrumentCache) (r : RawRow) :
    loadRow ex c r = (match rowEntry ex r with
      | none => c
      | some p =>
          { c with
            symbol_to_token := Dict.set c.symbol_to_token p.1 p.2
            token_to_symbol := Dict.set c.token_to_symbol p.2 p.1 }) := by
  unfold loadRow rowEntry
  cases r.instrument_token <;> cases r.tradingsymbol <;> rfl

theorem foldl_loadRow (ex : String) (rows : List RawRow) :
    ∀ c : InstrumentCache,
      (rows.foldl (loadRow ex) c).symbol_to_token =
        (rows.filterMap (rowEntry ex)).foldl (fun d p => Dict.set d p.1 p.2)
          c.symbol_to_token ∧
      (rows.foldl (loadRow ex) c).token_to_symbol =
        (rows.filterMap (rowEntry ex)).foldl (fun d p => Dict.set d p.2 p.1)
          c.token_to_symbol ∧
      (rows.foldl (loadRow ex) c).loaded = c.loaded := by
  induction rows with
  | nil => intro c; exact ⟨rfl, rfl, rfl⟩
  | cons r rest ih =>
      intro c
      rw [List.foldl_cons, List.filterMap_cons]
      cases hr : rowEntry ex r with
      | none =>
          have hc : loadRow ex c r = c := by rw [loadRow_eq, hr]
          rw [hc]
          exact ih c
      | some p =>
          have hc : loadRow ex c r =
              { c with
                symbol_to_token := Dict.set c.symbol_to_token p.1 p.2
                token_to_symbol := Dict.set c.token_to_symbol p.2 p.1 } := by
            rw [loadRow_eq, hr]
          rw [hc, List.foldl_cons]
          exact ih _

theorem load_eq (fetches : List (String × Option (List RawRow))) :
    ∀ c : InstrumentCache,
      (load c fetches).symbol_to_token =
        (fetchEntries fetches).foldl (fun d p => Dict.set d p.1 p.2) c.symbol_to_token ∧
      (load c fetches).token_to_symbol =
        (fetchEntries fetches).foldl (fun d p => Dict.set d p.2 p.1) c.token_to_symbol ∧
      (load c fetches).loaded = true := by
  induction fetches with
  | nil => intro c; exact ⟨rfl, rfl, rfl⟩
  | cons f rest ih =>
      intro c
      obtain ⟨ex, res⟩ := f
      cases res with
      | none =>
          show (load c rest).symbol_to_token = _ ∧ _
          rw [fetchEntries]
          exact ih c
      | some rows =>
          have hmain := foldl_loadRow ex rows c
          have hrest := ih (rows.foldl (loadRow ex) c)
          rw [fetchEntries]
          refine ⟨?_, ?_, ?_⟩
          · show (load (rows.foldl (loadRow ex) c) rest).symbol_to_token = _
            rw [hrest.1, hmain.1, List.foldl_append]
          · show (load (rows.foldl (loadRow ex) c) rest).token_to_symbol = _
            rw [hrest.2.1, hmain.2.1, List.foldl_append]
          · exact hrest.2.2

theorem get?_foldl_set_notin {K V : Type} [DecidableEq K] (entries : List (K × V))
    {k : K} (h : k ∉ entries.map Prod.fst) :
    ∀ d : List (K × V),
      Dict.get? (entries.foldl (fun d p => Dict.set d p.1 p.2) d) k = Dict.get? d k := by
  induction entries with
  | nil => intro d; rfl
  | cons p rest ih =>
      intro d
      rw [List.map_cons, List.mem_cons] at h
      push_neg at h
      rw [List.foldl_cons, ih h.2, Dict.get?_set_ne d h.1]

theorem get?_foldl_set_mem {K V : Type} [DecidableEq K] (entries : List (K × V))
    (hnd : (entries.map Prod.fst).Nodup) {k : K} {v : V} (hmem : (k, v) ∈ entries) :
    ∀ d : List (K × V),
      Dict.get? (entries.foldl (fun d p => Dict.set d p.1 p.2) d) k = some v := by
  induction entries with
  | nil => intro d; exact absurd hmem (List.not_mem_nil _)
  | cons p rest ih =>
      intro d
      rw [List.map_cons, List.nodup_cons] at hnd
      rcases List.mem_cons.mp hmem with heq | hmem2
      · subst heq
        rw [List.foldl_cons]
        have hk : (k, v).1 ∉ rest.map Prod.fst := hnd.1
        rw [get?_foldl_set_notin rest hk, Dict.get?_set_self]
      · rw [List.foldl_cons]
        exact ih hnd.2 hmem2 _

/-- Folding keyed-on-second-component inserts equals folding the swapped list. -/
theorem foldl_set_swap {K V : Type} [DecidableEq V] (entries : List (K × V))
    (d : List (V × K)) :
    entries.foldl (fun d p => Dict.set d p.2 p.1) d =
      (entries.map Prod.swap).foldl (fun d p => Dict.set d p.1 p.2) d := by
  rw [List.foldl_map]
  rfl

/-! ### Claim C3 -/

def c3fetch1 : List (String × Option (List RawRow)) := [("NSE", some [⟨some 1, some "A"⟩])]

def c3fetch2 : List (String × Option (List RawRow)) := [("NSE", some [⟨some 2, some "B"⟩])]

/-- C3 as stated is false on the code: after a first `load()` that maps
`NSE:A ↦ 1`, a second `load()` whose fetched dumps contain only `NSE:B ↦ 2`
leaves both directions of the `NSE:A ↦ 1` mapping in place — `load()` never
clears the tables, so re-invocation merges instead of replacing. -/
theorem load_replaces_counterexample :
    InstrumentCache.token (load emptyIC c3fetch1) "NSE:A" = some 1 ∧
    fetchEntries c3fetch2 = [("NSE:B", 2)] ∧
    InstrumentCache.token (load (load emptyIC c3fetch1) c3fetch2) "NSE:A" = some 1 ∧
    InstrumentCache.symbol (load (load emptyIC c3fetch1) c3fetch2) 1 = some "NSE:A" := by
  refine ⟨rfl, rfl, rfl, rfl⟩

/-- C3 (amended): re-invoking `load()` merges into the prior contents: every
symbol→token mapping whose symbol is not a key contributed by the newly
fetched dumps, and every token→symbol mapping whose token is not contributed
by them, is unchanged by the second `load()` (rather than absent, as the claim
states — see `load_replaces_counterexample`). -/
theorem load_merges (c : InstrumentCache) (fetches : List (String × Option (List RawRow))) :
    (∀ s, s ∉ (fetchEntries fetches).map Prod.fst →
        InstrumentCache.token (load c fetches) s = InstrumentCache.token c s) ∧
    (∀ t, t ∉ (fetchEntries fetches).map Prod.snd →
        InstrumentCache.symbol (load c fetches) t = InstrumentCache.symbol c t) := by
  constructor
  · intro s hs
    unfold InstrumentCache.token
    rw [(load_eq fetches c).1]
    exact get?_foldl_set_notin _ hs _
  · intro t ht
    unfold InstrumentCache.symbol
    rw [(load_eq fetches c).2.1, foldl_set_swap]
    have ht' : t ∉ ((fetchEntries fetches).map Prod.swap).map Prod.fst := by
      rw [List.map_map]
      exact ht
    exact get?_foldl_set_notin _ ht' _

/-- Witness for C3 (amended): `NSE:A` is not among the keys of the second
fetch, and its mapping survives the second `load()` unchanged. -/
theorem load_merges_witness :
    "NSE:A" ∉ (fetchEntries c3fetch2).map Prod.fst ∧
    InstrumentCache.token (load (load emptyIC c3fetch1) c3fetch2) "NSE:A" =
      InstrumentCache.token (load emptyIC c3fetch1) "NSE:A" :=
  ⟨by decide, (load_merges (load emptyIC c3fetch1) c3fetch2).1 "NSE:A" (by decide)⟩

/-! ### Claim C8 -/

/-- C8: after a successful `load()` from a fresh cache, for every `(key,
token)` pair contributed by the fetched dumps, `token(key)` is non-absent with
that token and `symbol(token(key)) = key`; every symbol not contributed by any
fetched dump resolves to absent.  The hypotheses state dump well-formedness as
the data model requires (`Unique token per exchange+symbol pair`): no key and
no token occurs twice across the parsed rows. -/
theorem instrument_lookup_spec (fetches : List (String × Option (List RawRow)))
    (hkeys : ((fetchEntries fetches).map Prod.fst).Nodup)
    (htoks : ((fetchEntries fetches).map Prod.snd).Nodup) :
    (∀ p ∈ fetchEntries fetches,
        InstrumentCache.token (load emptyIC fetches) p.1 = some p.2 ∧
        InstrumentCache.symbol (load emptyIC fetches) p.2 = some p.1) ∧
    (∀ s, s ∉ (fetchEntries fetches).map Prod.fst →
        InstrumentCache.token (load emptyIC fetches) s = none) ∧
    (load emptyIC fetches).loaded = true := by
  refine ⟨?_, ?_, (load_eq fetches emptyIC).2.2⟩
  · intro p hp
    constructor
    · unfold InstrumentCache.token
      rw [(load_eq fetches emptyIC).1]
      have hp' : (p.1, p.2) ∈ fetchEntries fetches := by simpa using hp
      exact get?_foldl_set_mem _ hkeys hp' _
    · unfold InstrumentCache.symbol
      rw [(load_eq fetches emptyIC).2.1, foldl_set_swap]
      have hnd : (((fetchEntries fetches).map Prod.swap).map Prod.fst).Nodup := by
        rw [List.map_map]
        exact htoks
      have hmem : (p.2, p.1) ∈ (fetchEntries fetches).map Prod.swap := by
        have : Prod.swap p ∈ (fetchEntries fetches).map Prod.swap :=
          List.mem_map_of_mem Prod.swap hp
        simpa using this
      exact get?_foldl_set_mem _ hnd hmem _
  · intro s hs
    unfold InstrumentCache.token
    rw [(load_eq fetches emptyIC).1]
    rw [get?_foldl_set_notin _ hs]
    rfl

def c8fetch : List (String × Option (List RawRow)) :=
  [("NSE", some [⟨some 1, some "A"⟩, ⟨some 2, some "B"⟩, ⟨none, some "C"⟩]),
   ("BSE", none)]

/-- Witness for C8: the two-exchange fetch below has distinct keys and tokens
(one row fails to parse, one exchange fetch fails and is tolerated); the row
`NSE:A ↦ 1` resolves both ways and an unknown symbol is absent. -/
theorem instrument_lookup_spec_witness :
    ((fetchEntries c8fetch).map Prod.fst).Nodup ∧
    InstrumentCache.token (load emptyIC c8fetch) "NSE:A" = some 1 ∧
    InstrumentCache.symbol (load emptyIC c8fetch) 1 = some "NSE:A" ∧
    InstrumentCache.token (load emptyIC c8fetch) "NSE:Z" = none := by
  have h := instrument_lookup_spec c8fetch (by decide) (by decide)
  have h1 := h.1 ("NSE:A", 1) (by decide)
  exact ⟨by decide, h1.1, h1.2, h.2.1 "NSE:Z" (by decide)⟩

/-! ### Tick payloads and the fallback poller -/

/-- Python `round(x, 2)` modelled on rationals.  (The tie-breaking mode of the
float `round` differs; no property proved here depends on it.) -/
def round2 (q : ℚ) : ℚ := (round (q * 100) : ℤ) / 100

theorem round2_zero : round2 0 = 0 := by
  simp [round2]

/-- The varying fields of a `type: "tick"` payload (the wall-clock `ts` field
is not modelled). -/
structure Tick where
  symbol : String
  ltp : ℚ
  change : ℚ
  change_pct : ℚ
  volume : Int
deriving DecidableEq

/-- One Yahoo Finance quote as far as `_fetch_and_broadcast` reads it; each
field is an `Option` because the code reads it with `quote.get(..., default)`. -/
structure Quote where
  symbol : Option String
  regularMarketPrice : Option ℚ
  regularMarketChange : Option ℚ
  regularMarketChangePercent : Option ℚ
  regularMarketVolume : Option Int
deriving DecidableEq

/-- Yahoo-symbol conversion in `_fetch_and_broadcast`: `EXCH:TICKER` becomes
`TICKER.NS` when the exchange is NSE and `TICKER.BO` otherwise; a symbol
without a colon passes through (`sym.split(":", 1)` keeps later colons in the
ticker part). -/
def toYF (sym : String) : String :=
  match sym.splitOn ":" with
  | ex :: t :: rest =>
      String.intercalate ":" (t :: rest) ++ (if ex = "NSE" then ".NS" else ".BO")
  | _ => sym

/-- Tick payload synthesized from one quote. -/
def mkQuoteTick (original : String) (q : Quote) : Tick :=
  { symbol := original
    ltp := q.regularMarketPrice.getD 0
    change := round2 (q.regularMarketChange.getD 0)
    change_pct := round2 (q.regularMarketChangePercent.getD 0)
    volume := q.regularMarketVolume.getD 0 }

/-- The result loop of `_fetch_and_broadcast`: one `broadcast_tick` per
returned quote, threading the registry state.  Per quote it records the
original symbol broadcast to, the synthesized tick and the delivered
sessions. -/
def broadcastQuotes (symMap : List (String × String)) (fails : Nat → Bool) :
    ConnectionManager → List Quote → ConnectionManager × List (String × Tick × List Nat)
  | m, [] => (m, [])
  | m, q :: rest =>
      let yf_sym := q.symbol.getD ""
      let original := Dict.getD symMap yf_sym yf_sym
      let out := broadcast_tick m original fails
      let next := broadcastQuotes symMap fails out.state rest
      (next.1, (original, mkQuoteTick original q, out.delivered) :: next.2)

/-- Outcome of the single batch HTTP request of `_fetch_and_broadcast`. -/
inductive FetchResult : Type where
  | ok (results : List Quote)
  | httpError
  | exn
deriving DecidableEq

/-- Observable outcome of one poller cycle. -/
structure CycleResult where
  state : ConnectionManager
  requestIssued : Bool
  requestedSymbols : List String
  broadcasts : List (String × Tick × List Nat)
  errorLogged : Bool

/-- Python `_fetch_and_broadcast(symbols)`: the `settings.indian_api_key` guard (falsy
key → silent return, no request), the single batch request covering the
Yahoo-converted symbol list, one `broadcast_tick` per returned quote, the
`except` clause that logs any exception, and the silent `return` on a non-200
response. -/
def fetch_and_broadcast (apiKey : String) (m : ConnectionManager) (symbols : List String)
    (resp : FetchResult) (fails : Nat → Bool) : CycleResult :=
  if apiKey = "" then ⟨m, false, [], [], false⟩
  else
    let yf_symbols := symbols.map toYF
    match resp with
    | .httpError => ⟨m, true, yf_symbols, [], false⟩
    | .exn => ⟨m, true, yf_symbols, [], true⟩
    | .ok results =>
        let sym_map := symbols.foldl (fun d s => Dict.set d (toYF s) s) []
        let out := broadcastQuotes sym_map fails m results
        ⟨out.1, true, yf_symbols, out.2, false⟩

/-- One cycle of `_poll_fallback` after the 5-second sleep: read
`all_subscribed_symbols()`, `continue` when empty, otherwise run
`_fetch_and_broadcast` on the enumeration of the set.  The surrounding
`while True` logs and swallows any escaping exception, so one cycle is a total
function and the loop always proceeds to the next interval. -/
def poll_cycle (apiKey : String) (m : ConnectionManager) (resp : FetchResult)
    (fails : Nat → Bool) : CycleResult :=
  if all_subscribed_symbols m = ∅ then ⟨m, false, [], [], false⟩
  else fetch_and_broadcast apiKey m ((all_subscribed_symbols m).sort (· ≤ ·)) resp fails

theorem broadcastQuotes_spec (symMap : List (String × String)) (fails : Nat → Bool)
    (results : List Quote) :
    ∀ m : ConnectionManager,
      (broadcastQuotes symMap fails m results).2.length = results.length ∧
      (broadcastQuotes symMap fails m results).2.map (fun b => b.1) =
        results.map (fun q => Dict.getD symMap (q.symbol.getD "") (q.symbol.getD "")) := by
  induction results with
  | nil => intro m; exact ⟨rfl, rfl⟩
  | cons q rest ih =>
      intro m
      simp only [broadcastQuotes, List.length_cons, List.map_cons]
      constructor
      · rw [(ih _).1]
      · rw [(ih _).2]

/-! ### Claim C7 -/

def c7m : ConnectionManager := ⟨[(1, {"NSE:A"})], [("NSE:A", {1})], [(1, 1)]⟩

/-- C7 as stated is false on the code: with a session subscribed to `NSE:A`
(so `allSubscribedSymbols()` is nonempty) but `settings.indian_api_key`
unconfigured, the cycle issues no batch request at all — `_fetch_and_broadcast`
returns immediately on a falsy API key and nothing is broadcast. -/
theorem poll_cycle_counterexample :
    all_subscribed_symbols c7m ≠ ∅ ∧
    (poll_cycle "" c7m (FetchResult.ok []) (fun _ => false)).requestIssued = false ∧
    (poll_cycle "" c7m (FetchResult.ok []) (fun _ => false)).broadcasts = [] := by
  refine ⟨by decide, ?_, ?_⟩ <;> rfl

/-- C7 (amended): on each fallback-poller cycle the code reads
`allSubscribedSymbols()`; if that set is empty the cycle is skipped with no
outbound request; otherwise — provided the fallback API key is configured
(`poll_cycle_counterexample` shows the claim fails without it) — exactly one
batch price request covering the Yahoo-converted form of all those symbols is
issued, and `broadcast_tick` is invoked once per quote returned in the
response, with a tick synthesized from the snapshot.  A batch failure never
escapes the cycle: an exception is logged and nothing is broadcast, while a
non-200 response ends the cycle silently (not logged); either way the poller
loop continues to the next interval (the cycle is a total function and the
loop's own `except` swallows anything that escapes). -/
theorem poll_cycle_spec (apiKey : String) (m : ConnectionManager) (resp : FetchResult)
    (fails : Nat → Bool) (hkey : apiKey ≠ "") :
    (all_subscribed_symbols m = ∅ →
        (poll_cycle apiKey m resp fails).requestIssued = false ∧
        (poll_cycle apiKey m resp fails).broadcasts = [] ∧
        (poll_cycle apiKey m resp fails).state = m) ∧
    (all_subscribed_symbols m ≠ ∅ →
        (poll_cycle apiKey m resp fails).requestIssued = true ∧
        (poll_cycle apiKey m resp fails).requestedSymbols =
          ((all_subscribed_symbols m).sort (· ≤ ·)).map toYF ∧
        (∀ results, resp = FetchResult.ok results →
            (poll_cycle apiKey m resp fails).broadcasts.length = results.length ∧
            (poll_cycle apiKey m resp fails).broadcasts.map (fun b => b.1) =
              results.map (fun q =>
                Dict.getD (((all_subscribed_symbols m).sort (· ≤ ·)).foldl
                    (fun d s => Dict.set d (toYF s) s) [])
                  (q.symbol.getD "") (q.symbol.getD ""))) ∧
        (resp = FetchResult.exn →
            (poll_cycle apiKey m resp fails).errorLogged = true ∧
            (poll_cycle apiKey m resp fails).broadcasts = [] ∧
            (poll_cycle apiKey m resp fails).state = m) ∧
        (resp = FetchResult.httpError →
            (poll_cycle apiKey m resp fails).errorLogged = false ∧
            (poll_cycle apiKey m resp fails).broadcasts = [] ∧
            (poll_cycle apiKey m resp fails).state = m)) := by
  constructor
  · intro hempty
    simp [poll_cycle, hempty]
  · intro hne
    have hpc : poll_cycle apiKey m resp fails =
        fetch_and_broadcast apiKey m ((all_subscribed_symbols m).sort (· ≤ ·)) resp fails := by
      rw [poll_cycle, if_neg hne]
    rw [hpc]
    cases resp with
    | ok results =>
        have hfb : fetch_and_broadcast apiKey m ((all_subscribed_symbols m).sort (· ≤ ·))
            (FetchResult.ok results) fails =
            ⟨(broadcastQuotes (((all_subscribed_symbols m).sort (· ≤ ·)).foldl
                (fun d s => Dict.set d (toYF s) s) []) fails m results).1, true,
              ((all_subscribed_symbols m).sort (· ≤ ·)).map toYF,
              (broadcastQuotes (((all_subscribed_symbols m).sort (· ≤ ·)).foldl
                (fun d s => Dict.set d (toYF s) s) []) fails m results).2, false⟩ := by
          rw [fetch_and_broadcast, if_neg hkey]
        rw [hfb]
        refine ⟨rfl, rfl, ?_, ?_, ?_⟩
        · intro results2 heq
          injection heq with h2
          subst h2
          exact broadcastQuotes_spec _ fails results m
        · intro h; cases h
        · intro h; cases h
    | httpError =>
        have hfb : fetch_and_broadcast apiKey m ((all_subscribed_symbols m).sort (· ≤ ·))
            FetchResult.httpError fails =
            ⟨m, true, ((all_subscribed_symbols m).sort (· ≤ ·)).map toYF, [], false⟩ := by
          rw [fetch_and_broadcast, if_neg hkey]
        rw [hfb]
        refine ⟨rfl, rfl, ?_, ?_, ?_⟩
        · intro results2 heq; cases heq
        · intro h; cases h
        · intro _; exact ⟨rfl, rfl, rfl⟩
    | exn =>
        have hfb : fetch_and_broadcast apiKey m ((all_subscribed_symbols m).sort (· ≤ ·))
            FetchResult.exn fails =
            ⟨m, true, ((all_subscribed_symbols m).sort (· ≤ ·)).map toYF, [], true⟩ := by
          rw [fetch_and_broadcast, if_neg hkey]
        rw [hfb]
        refine ⟨rfl, rfl, ?_, ?_, ?_⟩
        · intro results2 heq; cases heq
        · intro _; exact ⟨rfl, rfl, rfl⟩
        · intro h; cases h

/-- Witness for C7: with the key configured and one subscriber, an exception
during the batch fetch is logged, nothing is broadcast and the registry is
untouched; on an empty registry the cycle is skipped. -/
theorem poll_cycle_spec_witness :
    all_subscribed_symbols c7m ≠ ∅ ∧
    (poll_cycle "key" c7m FetchResult.exn (fun _ => false)).requestIssued = true ∧
    (poll_cycle "key" c7m FetchResult.exn (fun _ => false)).errorLogged = true ∧
    (poll_cycle "key" c7m FetchResult.exn (fun _ => false)).broadcasts = [] ∧
    (poll_cycle "key" emptyCM FetchResult.exn (fun _ => false)).requestIssued = false := by
  have h := poll_cycle_spec "key" c7m FetchResult.exn (fun _ => false) (by decide)
  have h2 := h.2 (by decide)
  have he := poll_cycle_spec "key" emptyCM FetchResult.exn (fun _ => false) (by decide)
  exact ⟨by decide, h2.1, (h2.2.2.2.1 rfl).1, (h2.2.2.2.1 rfl).2.1, (he.1 (by decide)).1⟩

/-! ### Claim C10 -/

/-- One raw Zerodha tick as far as `_on_ticks` reads it.  `ohlc_close` is
`none` iff the `ohlc` dict is missing or has no `close` key, in which case
`ohlc.get("close", last_price)` falls back to the last price. -/
structure RawTick where
  instrument_token : Option Int
  last_price : Option ℚ
  ohlc_close : Option ℚ
  volume_traded : Option Int
deriving DecidableEq

/-- Python `prev_close = tick.get("ohlc", ...).get("close", last_price)`. -/
def tickPrevClose (t : RawTick) : ℚ :=
  t.ohlc_close.getD (t.last_price.getD 0)

/-- The divisor the change-percent arithmetic actually uses: `none` when the
falsy guard `if prev_close` short-circuits to `0` without dividing. -/
def tickDivisor (t : RawTick) : Option ℚ :=
  if tickPrevClose t ≠ 0 then some (tickPrevClose t) else none

/-- The per-tick translation of `_on_ticks`: token→symbol resolution (a tick
whose token does not resolve is skipped by `continue`), previous-close
defaulting and change / change-percent arithmetic.  Prices are rationals; the
`if prev_close` guard only tests equality with zero, where the model agrees
with Python floats (`0.0` is falsy, and dividing by it raises). -/
def translate_tick (ic : InstrumentCache) (t : RawTick) : Option Tick :=
  match t.instrument_token.bind (fun tok => InstrumentCache.symbol ic tok) with
  | none => none
  | some sym =>
      let last_price := t.last_price.getD 0
      let prev_close := tickPrevClose t
      let change := round2 (last_price - prev_close)
      let change_pct := round2 (if prev_close ≠ 0 then change / prev_close * 100 else 0)
      some { symbol := sym, ltp := last_price, change := change,
             change_pct := change_pct, volume := t.volume_traded.getD 0 }

/-- C10: the upstream tick translation is total with respect to arithmetic:
the divisor used by the change-percent computation is never zero; when the
previous close is absent it defaults to the tick's last price, yielding change
0 (and change percent 0); and when the previous close is 0 the change percent
is set to 0 rather than computed by division. -/
theorem translate_tick_safe (ic : InstrumentCache) (t : RawTick) :
    (tickDivisor t ≠ some 0) ∧
    (t.ohlc_close = none → ∀ tk, translate_tick ic t = some tk →
        tk.change = 0 ∧ tk.change_pct = 0) ∧
    (tickPrevClose t = 0 → ∀ tk, translate_tick ic t = some tk → tk.change_pct = 0) := by
  refine ⟨?_, ?_, ?_⟩
  · unfold tickDivisor
    by_cases h : tickPrevClose t = 0
    · simp [h]
    · simp only [h, ne_eq, not_false_eq_true, if_true]
      intro hcontra
      exact h (Option.some_injective _ hcontra)
  · intro hclose tk htk
    unfold translate_tick at htk
    cases hres : t.instrument_token.bind (fun tok => InstrumentCache.symbol ic tok) with
    | none => rw [hres] at htk; cases htk
    | some sym =>
        rw [hres] at htk
        have hpc : tickPrevClose t = t.last_price.getD 0 := by
          unfold tickPrevClose
          rw [hclose]
          rfl
        have hch : round2 (t.last_price.getD 0 - tickPrevClose t) = 0 := by
          rw [hpc, sub_self, round2_zero]
        cases htk
        constructor
        · exact hch
        · show round2 (if tickPrevClose t ≠ 0 then
              round2 (t.last_price.getD 0 - tickPrevClose t) / tickPrevClose t * 100
            else 0) = 0
          by_cases hz : tickPrevClose t = 0
          · rw [if_neg (by simpa using hz), round2_zero]
          · rw [if_pos hz, hch, zero_div, zero_mul, round2_zero]
  · intro hzero tk htk
    unfold translate_tick at htk
    cases hres : t.instrument_token.bind (fun tok => InstrumentCache.symbol ic tok) with
    | none => rw [hres] at htk; cases htk
    | some sym =>
        rw [hres] at htk
        cases htk
        show round2 (if tickPrevClose t ≠ 0 then
            round2 (t.last_price.getD 0 - tickPrevClose t) / tickPrevClose t * 100
          else 0) = 0
        rw [if_neg (by simpa using hzero), round2_zero]

def c10ic : InstrumentCache := ⟨[("NSE:A", 1)], [(1, "NSE:A")], true⟩

def c10t : RawTick := ⟨some 1, some 5, none, some 100⟩

theorem c10_eval : translate_tick c10ic c10t = some ⟨"NSE:A", 5, 0, 0, 100⟩ := by
  have h1 : translate_tick c10ic c10t = some
      { symbol := "NSE:A"
        ltp := (5 : ℚ)
        change := round2 ((5 : ℚ) - 5)
        change_pct := round2 (if (5 : ℚ) ≠ 0 then round2 ((5 : ℚ) - 5) / 5 * 100 else 0)
        volume := 100 } := rfl
  have hch : round2 ((5 : ℚ) - 5) = 0 := by
    rw [show ((5 : ℚ) - 5) = 0 by norm_num, round2_zero]
  have hpct : round2 (if (5 : ℚ) ≠ 0 then round2 ((5 : ℚ) - 5) / 5 * 100 else 0) = 0 := by
    rw [if_pos (by norm_num), hch,
      show ((0 : ℚ) / 5 * 100) = 0 by norm_num, round2_zero]
  rw [h1, hpct, hch]

/-- Witness for C10: a tick with no `ohlc.close` translates with change 0 and
change percent 0, and its divisor option is not zero. -/
theorem translate_tick_safe_witness :
    c10t.ohlc_close = none ∧
    tickDivisor c10t ≠ some 0 ∧
    ((⟨"NSE:A", 5, 0, 0, 100⟩ : Tick).change = 0 ∧
      (⟨"NSE:A", 5, 0, 0, 100⟩ : Tick).change_pct = 0) := by
  have h := translate_tick_safe c10ic c10t
  exact ⟨rfl, h.1, h.2.1 rfl _ c10_eval⟩

end InsightfulPortfolio
